import Mathlib

/-!
Shallow embedding of the delta-synchronization cache of `src/api.py`
(classes `Cache`, `CacheItem`, `DeltaCacheItem`, `Client`), together with
theorems settling the specification claims about it.

Conventions of the embedding:
* Python records implementing the `DeltaCacheData` protocol are modelled by a
  structure exposing `get_id`; the rest of the record payload is abstracted
  into a single `val` field (the merge never inspects anything but `get_id`).
* The Python `dict` underlying `Cache` is modelled by an association list with
  first-match lookup and replace-on-insert, which matches `key in self`,
  `self[key]` and `self[key] = v`.
* Fallible HTTP fetches are modelled as `Option Int → Except Int FetchResponse`
  (the argument is the optional `last_knowledge_of_server` query parameter, an
  `Except.error` is `requests.HTTPError` from `raise_for_status`).  The
  `resource_extractor` composition is folded into the fetch function, since the
  claims never separate the two.
* Functions that perform I/O additionally return a log of the calls they made
  (list of watermark arguments passed to `fetch`), or a list of file-system
  operations, so that "never calls the network" and "writes via rename" are
  statable.
-/

/-- A record held in the delta cache.  Embeds the Python `DeltaCacheData`
protocol of `src/api.py`: the merge algorithm only ever calls `get_id()`,
so the remainder of a concrete record (Account, Category, ...) is abstracted
into the payload field `val`. -/
structure DeltaCacheData where
  get_id : String
  val : Int
deriving DecidableEq

/-- A value stored in the `Cache` dict of `src/api.py`: either a plain
`CacheItem` (non-delta resources) or a `DeltaCacheItem` carrying the
`server_knowledge` watermark.  Both Python classes expose a `.data`
attribute, which the duck-typed read `self[key].data` relies on. -/
inductive CacheValue where
  | cacheItem (data : List DeltaCacheData)
  | deltaCacheItem (server_knowledge : Int) (data : List DeltaCacheData)
deriving DecidableEq

/-- The duck-typed `.data` attribute shared by `CacheItem` and
`DeltaCacheItem`. -/
def CacheValue.data : CacheValue → List DeltaCacheData
  | .cacheItem d => d
  | .deltaCacheItem _ d => d

/-- The mapping underlying the `Cache` dict subclass. -/
abbrev CacheMap := List (String × CacheValue)

/-- Lookup in the cache dict (`key in self` / `self[key]`). -/
def Cache.find (store : CacheMap) (key : String) : Option CacheValue :=
  match store with
  | [] => none
  | (k, v) :: rest => if k = key then some v else Cache.find rest key

/-- Assignment into the cache dict (`self[key] = v`): replaces the binding if
the key is present, appends it otherwise. -/
def Cache.insert (store : CacheMap) (key : String) (v : CacheValue) : CacheMap :=
  match store with
  | [] => [(key, v)]
  | (k, w) :: rest => if k = key then (k, v) :: rest else (k, w) :: Cache.insert rest key v

/-- The in-memory state of the `Cache` object of `src/api.py`: the `frozen`
flag set by `Cache.__init__` and the dict contents.  The `_file_path`
attribute only matters for `save_to_file`, which is modelled separately. -/
structure Cache where
  frozen : Bool
  store : CacheMap
deriving DecidableEq

/-- The cache modes of `Client.CacheMode` in `src/api.py`. -/
inductive CacheMode where
  | normal
  | freeze
  | flush
deriving DecidableEq

/-- Embeds `Cache.__init__` of `src/api.py` (lines 446-457).  `persisted` is
the decoded content of the cache file (`none` when the file does not exist, in
which case `load_from_file` leaves the dict empty).  The Python code sets
`frozen = False`, then matches the mode: `freeze` sets `frozen = True` (and
does not load), `flush` calls `load_from_file()`, and `normal` falls through
doing neither. -/
def Cache.init (persisted : Option CacheMap) (mode : CacheMode) : Cache :=
  match mode with
  | .freeze => { frozen := true, store := [] }
  | .flush =>
    { frozen := false
      store := match persisted with
        | some m => m
        | none => [] }
  | .normal => { frozen := false, store := [] }

/-- One iteration of the outer loop of `Cache.update_delta_data`
(`src/api.py` lines 485-494): scan the accumulated `data_to_cache` for the
cached record's id; append the cached record only when no record with the
same id is already present. -/
def mergeStep (data_to_cache : List DeltaCacheData) (cached_datum : DeltaCacheData) :
    List DeltaCacheData :=
  if data_to_cache.any (fun datum_to_cache => datum_to_cache.get_id == cached_datum.get_id)
  then data_to_cache
  else data_to_cache ++ [cached_datum]

/-- The whole merge loop of `Cache.update_delta_data`: the accumulator starts
as the delta response `data` and each previously cached record is folded in
with `mergeStep`. -/
def mergeRecords (cached_data data : List DeltaCacheData) : List DeltaCacheData :=
  cached_data.foldl mergeStep data

/-- Embeds `Cache.update_delta_data` of `src/api.py` (lines 479-498) as a
state transformer on the cache: read the previously cached records (empty
when the key is absent), merge, store a fresh `DeltaCacheItem` with the new
`server_knowledge`, and return the merged records. -/
def Cache.update_delta_data (c : Cache) (key : String) (data : List DeltaCacheData)
    (server_knowledge : Int) : List DeltaCacheData × Cache :=
  let cached_data : List DeltaCacheData :=
    match Cache.find c.store key with
    | some v => v.data
    | none => []
  let data_to_cache := mergeRecords cached_data data
  (data_to_cache,
   { c with store := Cache.insert c.store key (.deltaCacheItem server_knowledge data_to_cache) })

/-- Embeds `Cache.update_data` of `src/api.py` (lines 500-501). -/
def Cache.update_data (c : Cache) (key : String) (data : List DeltaCacheData) : Cache :=
  { c with store := Cache.insert c.store key (.cacheItem data) }

/-- The body of a successful delta response: `server_knowledge` plus the
extracted records (`resource_extractor` applied to `data`). -/
structure FetchResponse where
  server_knowledge : Int
  records : List DeltaCacheData
deriving DecidableEq

/-- `l.any (fun d => d.get_id == i)`: whether some record of `l` carries the
identity `i`.  This is exactly the found-test of the merge loop. -/
def idMem (l : List DeltaCacheData) (i : String) : Bool :=
  l.any (fun d => d.get_id == i)

/-- Embeds the cache handling of `Client.__init__` of `src/api.py`
(lines 542-562): after the user confirms, `flush` mode clears the
transport-level `requests_cache` session (modelled as a list of cached
responses), and the delta `Cache` is constructed with the given mode.
Returns the constructed cache and the surviving session cache. -/
def Client.init (persisted : Option CacheMap) (session : List (String × FetchResponse))
    (mode : CacheMode) : Cache × List (String × FetchResponse) :=
  let session2 := if mode = CacheMode.flush then [] else session
  (Cache.init persisted mode, session2)

/-- Embeds `Client.get_cached_resource` of `src/api.py` (lines 581-606) as a
function of the cache state.  `delta_cacheable` is the
`url_template ∈ _delta_cacheable_urls` test; `fetch` is `self.get` composed
with `resource_extractor`, taking the optional `last_knowledge_of_server`
parameter.  Returns the result (or propagated HTTP error), the new cache
state, and the list of watermark arguments `fetch` was invoked with (so that
"no network call" is the statement that this list is empty).  The Python
`case _: raise TypeError` branch is unreachable here because `CacheValue`
has exactly the two modelled constructors. -/
def Client.get_cached_resource (c : Cache) (url : String) (delta_cacheable : Bool)
    (fetch : Option Int → Except Int FetchResponse) :
    Except Int (List DeltaCacheData) × Cache × List (Option Int) :=
  match Cache.find c.store url with
  | some (.cacheItem d) => (Except.ok d, c, [])
  | some (.deltaCacheItem sk d) =>
    if c.frozen then
      (Except.ok d, c, [])
    else
      match fetch (some sk) with
      | .error e => (Except.error e, c, [some sk])
      | .ok resp =>
        if delta_cacheable then
          let rc := Cache.update_delta_data c url resp.records resp.server_knowledge
          (Except.ok rc.1, rc.2, [some sk])
        else
          (Except.ok resp.records, Cache.update_data c url resp.records, [some sk])
  | none =>
    match fetch none with
    | .error e => (Except.error e, c, [none])
    | .ok resp =>
      if delta_cacheable then
        let rc := Cache.update_delta_data c url resp.records resp.server_knowledge
        (Except.ok rc.1, rc.2, [none])
      else
        (Except.ok resp.records, Cache.update_data c url resp.records, [none])

/-- A Python heap restricted to list objects holding delta records:
references are natural numbers, each cell holds a record list.  Used to
state the in-place mutation / aliasing behaviour of `update_delta_data`. -/
abbrev Heap := Nat → List DeltaCacheData

/-- Pointwise heap update. -/
def Heap.write (h : Heap) (r : Nat) (v : List DeltaCacheData) : Heap :=
  fun r2 => if r2 = r then v else h r2

/-- One iteration of the `update_delta_data` loop at the reference level:
`data_to_cache` is a reference, the found-test reads the list it points to,
and the append `data_to_cache.append(cached_datum)` mutates that cell. -/
def heapMergeStep (data_to_cache : Nat) (h : Heap) (cached_datum : DeltaCacheData) : Heap :=
  if (h data_to_cache).any (fun datum_to_cache => datum_to_cache.get_id == cached_datum.get_id)
  then h
  else Heap.write h data_to_cache ((h data_to_cache) ++ [cached_datum])

/-- Embeds `Cache.update_delta_data` at the level of Python object
references: the assignment `data_to_cache = data` copies the *reference*
`dataRef` (not the list), the loop appends carried-over cached records to
that same object, `self[key] = DeltaCacheItem(server_knowledge,
data_to_cache)` stores the reference, and `return data_to_cache` returns it.
Returns (final heap, reference stored in the new `DeltaCacheItem`, reference
returned to the caller). -/
def update_delta_data_refs (h : Heap) (dataRef : Nat) (cached_data : List DeltaCacheData) :
    Heap × Nat × Nat :=
  let data_to_cache := dataRef
  (cached_data.foldl (heapMergeStep data_to_cache) h, data_to_cache, data_to_cache)

/-- A file-system operation, for stating what `Cache.save_to_file` does at
the I/O level. -/
inductive FsOp where
  | write (path content : String)
  | rename (src dst : String)
deriving DecidableEq

/-- Whether an operation is a rename. -/
def FsOp.isRename : FsOp → Bool
  | .rename _ _ => true
  | _ => false

/-- Effect of one operation on a file system (path ↦ content). -/
def FsOp.apply (fs : String → Option String) : FsOp → (String → Option String)
  | .write p c => fun q => if q = p then some c else fs q
  | .rename s d => fun q => if q = d then fs s else if q = s then none else fs q

/-- Effect of a sequence of operations. -/
def FsOp.applyAll (fs : String → Option String) (ops : List FsOp) : String → Option String :=
  ops.foldl FsOp.apply fs

/-- Embeds `Cache.save_to_file` of `src/api.py` (lines 470-477) as the
sequence of file-system operations it performs: it deletes `_file_path` from
the object, jsonpickle-encodes the dict (`encoded` abstracts that encoding),
and writes the encoding directly to the target path opened in mode "w".
There is no try/except around any of it. -/
def Cache.save_to_file_ops (file_path : String) (encoded : String) : List FsOp :=
  [FsOp.write file_path encoded]

-- Sanity checks of the merge on the spec's concrete scenarios.
example :
    mergeRecords [⟨"x", 1⟩, ⟨"y", 2⟩] [⟨"x", 9⟩] = [⟨"x", 9⟩, ⟨"y", 2⟩] := by decide

example : mergeRecords [] [⟨"x", 1⟩, ⟨"y", 2⟩] = [⟨"x", 1⟩, ⟨"y", 2⟩] := by decide

example : mergeRecords [⟨"x", 1⟩, ⟨"y", 2⟩] [] = [⟨"x", 1⟩, ⟨"y", 2⟩] := by decide

/-! ### Helper lemmas about the merge loop -/

theorem mergeRecords_nil_left (data : List DeltaCacheData) : mergeRecords [] data = data := rfl

theorem mergeRecords_cons (c : DeltaCacheData) (rest : List DeltaCacheData)
    (acc : List DeltaCacheData) :
    mergeRecords (c :: rest) acc = mergeRecords rest (mergeStep acc c) := rfl

theorem mergeStep_eq_ite (acc : List DeltaCacheData) (c : DeltaCacheData) :
    mergeStep acc c = if idMem acc c.get_id then acc else acc ++ [c] := rfl

theorem idMem_nil (i : String) : idMem [] i = false := rfl

theorem idMem_append (l1 l2 : List DeltaCacheData) (i : String) :
    idMem (l1 ++ l2) i = (idMem l1 i || idMem l2 i) := by
  simp [idMem, List.any_append]

theorem idMem_eq_true_iff (l : List DeltaCacheData) (i : String) :
    idMem l i = true ↔ ∃ d ∈ l, d.get_id = i := by
  simp [idMem, List.any_eq_true]

theorem idMem_singleton (c : DeltaCacheData) (i : String) :
    idMem [c] i = (c.get_id == i) := by
  simp [idMem]

/-- The heart of the merge contract: when the previously cached records have
pairwise distinct identities, the loop of `update_delta_data` produces the
accumulator followed by exactly those cached records whose identity does not
occur in the accumulator. -/
theorem mergeRecords_eq_append_filter (cd : List DeltaCacheData)
    (hnd : (cd.map DeltaCacheData.get_id).Nodup) (acc : List DeltaCacheData) :
    mergeRecords cd acc = acc ++ cd.filter (fun c => ! idMem acc c.get_id) := by
  induction cd generalizing acc with
  | nil => simp [mergeRecords]
  | cons c rest ih =>
    rw [List.map_cons, List.nodup_cons] at hnd
    obtain ⟨hc, hrest⟩ := hnd
    rw [mergeRecords_cons, mergeStep_eq_ite]
    by_cases h : idMem acc c.get_id = true
    · rw [if_pos h, ih hrest acc]
      have hfc : (fun x : DeltaCacheData => ! idMem acc x.get_id) c = false := by
        simp [h]
      rw [List.filter_cons_of_neg (by simp [hfc, h])]
    · rw [if_neg h, ih hrest (acc ++ [c])]
      have hfilter : rest.filter (fun r => ! idMem (acc ++ [c]) r.get_id)
          = rest.filter (fun r => ! idMem acc r.get_id) := by
        refine List.filter_congr ?_
        intro r hr
        have hne : c.get_id ≠ r.get_id := by
          intro he
          exact hc (he ▸ List.mem_map_of_mem DeltaCacheData.get_id hr)
        rw [idMem_append, idMem_singleton]
        have : (c.get_id == r.get_id) = false := by
          simpa using hne
        simp [this]
      rw [hfilter]
      have hpc : (fun x : DeltaCacheData => ! idMem acc x.get_id) c = true := by
        simp [Bool.not_eq_true] at h ⊢
        exact h
      rw [List.filter_cons_of_pos (by simp [hpc])]
      simp [List.append_assoc]

/-- One merge step only ever appends to the accumulator. -/
theorem mergeStep_exists_append (acc : List DeltaCacheData) (c : DeltaCacheData) :
    ∃ s, mergeStep acc c = acc ++ s := by
  rw [mergeStep_eq_ite]
  by_cases h : idMem acc c.get_id = true
  · exact ⟨[], by simp [h]⟩
  · exact ⟨[c], by simp [h]⟩

/-- The delta records are always a prefix of the merge result: the loop never
removes or reorders the accumulator it started from. -/
theorem mergeRecords_exists_append (cd : List DeltaCacheData) (acc : List DeltaCacheData) :
    ∃ t, mergeRecords cd acc = acc ++ t := by
  induction cd generalizing acc with
  | nil => exact ⟨[], by simp [mergeRecords]⟩
  | cons c rest ih =>
    rw [mergeRecords_cons]
    obtain ⟨s, hs⟩ := mergeStep_exists_append acc c
    obtain ⟨t, ht⟩ := ih (mergeStep acc c)
    exact ⟨s ++ t, by rw [ht, hs, List.append_assoc]⟩

/-! ### Helper lemmas about the cache dict -/

theorem Cache.find_insert_self (s : CacheMap) (k : String) (v : CacheValue) :
    Cache.find (Cache.insert s k v) k = some v := by
  induction s with
  | nil => simp [Cache.insert, Cache.find]
  | cons hd tl ih =>
    obtain ⟨k2, v2⟩ := hd
    by_cases h : k2 = k
    · simp [Cache.insert, Cache.find, h]
    · simp [Cache.insert, Cache.find, h, ih]

/-! ### Helper lemmas about the reference-level merge -/

theorem heapMergeStep_at (r : Nat) (h : Heap) (c : DeltaCacheData) :
    (heapMergeStep r h c) r = mergeStep (h r) c := by
  rw [heapMergeStep, mergeStep]
  by_cases hc : (h r).any (fun d => d.get_id == c.get_id) = true
  · simp [hc]
  · simp [hc, Heap.write]

theorem heapMergeStep_ne (r : Nat) (h : Heap) (c : DeltaCacheData) (r2 : Nat)
    (hne : r2 ≠ r) : (heapMergeStep r h c) r2 = h r2 := by
  rw [heapMergeStep]
  by_cases hc : (h r).any (fun d => d.get_id == c.get_id) = true
  · simp [hc]
  · simp [hc, Heap.write, hne]

/-- Folding the reference-level loop over the heap computes, in the cell the
delta reference points to, exactly the pure merge of the cached records into
that cell's contents; every other cell is untouched. -/
theorem foldl_heapMergeStep (cd : List DeltaCacheData) (r : Nat) (h : Heap) :
    (cd.foldl (heapMergeStep r) h) r = mergeRecords cd (h r) ∧
      ∀ r2, r2 ≠ r → (cd.foldl (heapMergeStep r) h) r2 = h r2 := by
  induction cd generalizing h with
  | nil => exact ⟨rfl, fun r2 _ => rfl⟩
  | cons c rest ih =>
    obtain ⟨ih1, ih2⟩ := ih (heapMergeStep r h c)
    constructor
    · rw [List.foldl_cons, ih1, heapMergeStep_at, mergeRecords_cons]
    · intro r2 hne
      rw [List.foldl_cons, ih2 r2 hne, heapMergeStep_ne r h c r2 hne]

/-! ### Claim theorems -/

/-- Claim C1: merging a previous record set `P` (held in the cache under
`key`, with pairwise distinct identities as the cache-entry invariant
requires) with a delta record set `D` returns `D` followed by exactly the
`P` records whose identity does not occur in `D`, in their original relative
order; hence every result record whose identity occurs in `D` is the `D`
version, and every `P` record with identity absent from `D` appears
unchanged. -/
theorem update_delta_data_delta_precedence_retention_order
    (c : Cache) (key : String) (D : List DeltaCacheData) (sk w : Int)
    (P : List DeltaCacheData)
    (hfind : Cache.find c.store key = some (CacheValue.deltaCacheItem w P))
    (hnd : (P.map DeltaCacheData.get_id).Nodup) :
    (Cache.update_delta_data c key D sk).1
        = D ++ P.filter (fun p => ! idMem D p.get_id) ∧
    (∀ r ∈ (Cache.update_delta_data c key D sk).1, idMem D r.get_id = true → r ∈ D) ∧
    (∀ p ∈ P, idMem D p.get_id = false → p ∈ (Cache.update_delta_data c key D sk).1) := by
  have hres : (Cache.update_delta_data c key D sk).1 = mergeRecords P D := by
    simp [Cache.update_delta_data, hfind, CacheValue.data]
  rw [hres, mergeRecords_eq_append_filter P hnd D]
  refine ⟨rfl, ?_, ?_⟩
  · intro r hr hid
    rcases List.mem_append.1 hr with h | h
    · exact h
    · exfalso
      have h2 := (List.mem_filter.1 h).2
      simp [hid] at h2
  · intro p hp hid
    exact List.mem_append.2 (Or.inr (List.mem_filter.2 ⟨hp, by simp [hid]⟩))

/-- Witness for C1 at a concrete cache, previous set and delta set. -/
theorem update_delta_data_delta_precedence_retention_order_witness :
    (Cache.update_delta_data
        ⟨false, [("k", CacheValue.deltaCacheItem 1 [⟨"a", 1⟩, ⟨"b", 2⟩])]⟩
        "k" [⟨"a", 9⟩, ⟨"c", 3⟩] 2).1
      = [⟨"a", 9⟩, ⟨"c", 3⟩]
        ++ [⟨"a", 1⟩, ⟨"b", 2⟩].filter
            (fun p => ! idMem [⟨"a", 9⟩, ⟨"c", 3⟩] p.get_id) :=
  (update_delta_data_delta_precedence_retention_order
    ⟨false, [("k", CacheValue.deltaCacheItem 1 [⟨"a", 1⟩, ⟨"b", 2⟩])]⟩
    "k" [⟨"a", 9⟩, ⟨"c", 3⟩] 2 1 [⟨"a", 1⟩, ⟨"b", 2⟩] (by decide) (by decide)).1

/-- Claim C9: merging with no previous entry yields exactly the delta (same
content and order) and stores it under the response watermark; merging a
present previous set `P` (with distinct identities) with an empty delta
yields exactly `P`, while the stored watermark is still replaced by the
response watermark. -/
theorem update_delta_data_first_sync_and_noop_sync :
    (∀ (c : Cache) (key : String) (D : List DeltaCacheData) (sk : Int),
        Cache.find c.store key = none →
          (Cache.update_delta_data c key D sk).1 = D ∧
          Cache.find (Cache.update_delta_data c key D sk).2.store key
            = some (CacheValue.deltaCacheItem sk D)) ∧
    (∀ (c : Cache) (key : String) (P : List DeltaCacheData) (w sk : Int),
        Cache.find c.store key = some (CacheValue.deltaCacheItem w P) →
        (P.map DeltaCacheData.get_id).Nodup →
          (Cache.update_delta_data c key [] sk).1 = P ∧
          Cache.find (Cache.update_delta_data c key [] sk).2.store key
            = some (CacheValue.deltaCacheItem sk P)) := by
  constructor
  · intro c key D sk hfind
    constructor
    · simp [Cache.update_delta_data, hfind, mergeRecords]
    · simp [Cache.update_delta_data, hfind, mergeRecords, Cache.find_insert_self]
  · intro c key P w sk hfind hnd
    have hm : mergeRecords P [] = P := by
      rw [mergeRecords_eq_append_filter P hnd []]
      simp [idMem_nil]
    constructor
    · simp [Cache.update_delta_data, hfind, CacheValue.data, hm]
    · simp [Cache.update_delta_data, hfind, CacheValue.data, hm, Cache.find_insert_self]

/-- Witness for C9: a first sync stores and returns the delta; an empty
delta on a warm key returns the previous records and bumps the watermark. -/
theorem update_delta_data_first_sync_and_noop_sync_witness :
    ((Cache.update_delta_data ⟨false, []⟩ "k" [⟨"x", 1⟩, ⟨"y", 2⟩] 10).1
        = [⟨"x", 1⟩, ⟨"y", 2⟩] ∧
     Cache.find (Cache.update_delta_data ⟨false, []⟩ "k" [⟨"x", 1⟩, ⟨"y", 2⟩] 10).2.store "k"
        = some (CacheValue.deltaCacheItem 10 [⟨"x", 1⟩, ⟨"y", 2⟩])) ∧
    ((Cache.update_delta_data
          ⟨false, [("k", CacheValue.deltaCacheItem 10 [⟨"x", 1⟩, ⟨"y", 2⟩])]⟩ "k" [] 11).1
        = [⟨"x", 1⟩, ⟨"y", 2⟩] ∧
     Cache.find (Cache.update_delta_data
          ⟨false, [("k", CacheValue.deltaCacheItem 10 [⟨"x", 1⟩, ⟨"y", 2⟩])]⟩
          "k" [] 11).2.store "k"
        = some (CacheValue.deltaCacheItem 11 [⟨"x", 1⟩, ⟨"y", 2⟩])) :=
  ⟨update_delta_data_first_sync_and_noop_sync.1 ⟨false, []⟩ "k" [⟨"x", 1⟩, ⟨"y", 2⟩] 10
      (by decide),
   update_delta_data_first_sync_and_noop_sync.2
      ⟨false, [("k", CacheValue.deltaCacheItem 10 [⟨"x", 1⟩, ⟨"y", 2⟩])]⟩ "k"
      [⟨"x", 1⟩, ⟨"y", 2⟩] 10 11 (by decide) (by decide)⟩

/-- Claim C5 counterexample: a delta containing two records with the same
identity is merged without any error: `update_delta_data` returns normally
(it is a total function with no failure result at all) and keeps both
copies, rather than raising a MergeConflict. -/
theorem update_delta_data_duplicate_delta_counterexample :
    Cache.update_delta_data ⟨false, []⟩ "k" [⟨"x", 1⟩, ⟨"x", 2⟩] 5
      = ([⟨"x", 1⟩, ⟨"x", 2⟩],
         ⟨false, [("k", CacheValue.deltaCacheItem 5 [⟨"x", 1⟩, ⟨"x", 2⟩])]⟩) := by
  decide

/-- Claim C5 (amended): duplicate identities within a delta are not
detected: the merge never raises, and all delta records — duplicates
included — are kept verbatim at the front of the merged result. -/
theorem update_delta_data_keeps_duplicate_delta
    (c : Cache) (key : String) (D : List DeltaCacheData) (sk : Int) :
    ∃ t, (Cache.update_delta_data c key D sk).1 = D ++ t := by
  simp only [Cache.update_delta_data]
  exact mergeRecords_exists_append _ D

/-- Claim C10: `update_delta_data` mutates its delta argument in place.  At
the reference level, the reference stored in the new cache entry and the
reference returned to the caller are both the caller's own list object; that
object's cell now holds the delta extended with the carried-over previous
records, and no other heap cell changes. -/
theorem update_delta_data_refs_aliasing (h : Heap) (dataRef : Nat)
    (cached_data : List DeltaCacheData) :
    (update_delta_data_refs h dataRef cached_data).2.1 = dataRef ∧
    (update_delta_data_refs h dataRef cached_data).2.2 = dataRef ∧
    (update_delta_data_refs h dataRef cached_data).1 dataRef
      = mergeRecords cached_data (h dataRef) ∧
    (∀ r2, r2 ≠ dataRef → (update_delta_data_refs h dataRef cached_data).1 r2 = h r2) := by
  obtain ⟨h1, h2⟩ := foldl_heapMergeStep cached_data dataRef (h := h)
  exact ⟨rfl, rfl, h1, h2⟩

/-- Witness for C10 on a concrete two-cell heap. -/
theorem update_delta_data_refs_aliasing_witness :
    (update_delta_data_refs (fun _ => [⟨"x", 9⟩]) 0 [⟨"a", 1⟩]).2.2 = 0 ∧
    (update_delta_data_refs (fun _ => [⟨"x", 9⟩]) 0 [⟨"a", 1⟩]).1 0
      = mergeRecords [⟨"a", 1⟩] [⟨"x", 9⟩] := by
  have h := update_delta_data_refs_aliasing (fun _ => [⟨"x", 9⟩]) 0 [⟨"a", 1⟩]
  exact ⟨h.2.1, h.2.2.1⟩

/-- Claim C4: when the cache holds a `DeltaCacheItem` for the key and the
cache is frozen, `get_cached_resource` returns the stored records verbatim,
invokes the fetch function zero times, and leaves the cache state exactly as
it was. -/
theorem get_cached_resource_frozen_hit
    (c : Cache) (url : String) (dc : Bool) (fetch : Option Int → Except Int FetchResponse)
    (sk : Int) (d : List DeltaCacheData)
    (hfz : c.frozen = true)
    (hfind : Cache.find c.store url = some (CacheValue.deltaCacheItem sk d)) :
    Client.get_cached_resource c url dc fetch = (Except.ok d, c, []) := by
  simp [Client.get_cached_resource, hfind, hfz]

/-- Witness for C4: a frozen cache warmed with one entry serves it with no
fetch call. -/
theorem get_cached_resource_frozen_hit_witness :
    Client.get_cached_resource ⟨true, [("K", CacheValue.deltaCacheItem 3 [⟨"x", 1⟩])]⟩
        "K" true (fun _ => Except.error 500)
      = (Except.ok [⟨"x", 1⟩], ⟨true, [("K", CacheValue.deltaCacheItem 3 [⟨"x", 1⟩])]⟩, []) :=
  get_cached_resource_frozen_hit
    ⟨true, [("K", CacheValue.deltaCacheItem 3 [⟨"x", 1⟩])]⟩ "K" true
    (fun _ => Except.error 500) 3 [⟨"x", 1⟩] rfl (by decide)

/-- Claim C8: when the fetch function fails, `get_cached_resource` leaves
the cache state exactly as it was, and whenever the fetch function was
actually invoked, the error is what the caller receives, unchanged. -/
theorem get_cached_resource_fetch_error_no_mutation
    (c : Cache) (url : String) (dc : Bool) (e : Int)
    (fetch : Option Int → Except Int FetchResponse)
    (hf : ∀ w, fetch w = Except.error e) :
    (Client.get_cached_resource c url dc fetch).2.1 = c ∧
    ((Client.get_cached_resource c url dc fetch).2.2 ≠ [] →
      (Client.get_cached_resource c url dc fetch).1 = Except.error e) := by
  cases hfind : Cache.find c.store url with
  | none => simp [Client.get_cached_resource, hfind, hf]
  | some v =>
    cases v with
    | cacheItem d => simp [Client.get_cached_resource, hfind]
    | deltaCacheItem sk d =>
      by_cases hfz : c.frozen
      · simp [Client.get_cached_resource, hfind, hfz]
      · simp [Client.get_cached_resource, hfind, hfz, hf]

/-- Witness for C8: a failing fetch on a cold key propagates the HTTP error
and leaves the (empty) store untouched. -/
theorem get_cached_resource_fetch_error_no_mutation_witness :
    (Client.get_cached_resource ⟨false, []⟩ "K" true (fun _ => Except.error 500)).2.1
        = ⟨false, []⟩ ∧
    ((Client.get_cached_resource ⟨false, []⟩ "K" true (fun _ => Except.error 500)).2.2 ≠ [] →
      (Client.get_cached_resource ⟨false, []⟩ "K" true (fun _ => Except.error 500)).1
        = Except.error 500) :=
  get_cached_resource_fetch_error_no_mutation ⟨false, []⟩ "K" true 500
    (fun _ => Except.error 500) (fun _ => rfl)

/-- Claim C3 counterexample: requesting a key with no entry from a frozen
cache does not fail and does not avoid the network: the fetch function is
invoked (with no watermark), its result is cached and returned. -/
theorem frozen_missing_entry_counterexample :
    Client.get_cached_resource ⟨true, []⟩ "K" true (fun _ => Except.ok ⟨7, [⟨"x", 1⟩]⟩)
      = (Except.ok [⟨"x", 1⟩], ⟨true, [("K", CacheValue.deltaCacheItem 7 [⟨"x", 1⟩])]⟩,
         [none]) := rfl

/-- Claim C3 (amended): in frozen mode with no entry for the key, the code
performs a full fetch — the fetch function is invoked exactly once, with no
watermark — and, when that fetch succeeds, the call returns its records
(no CacheMiss error exists in the code) and stores them under the response
watermark. -/
theorem frozen_missing_entry_full_fetch
    (c : Cache) (url : String) (dc : Bool) (fetch : Option Int → Except Int FetchResponse)
    (hfind : Cache.find c.store url = none) :
    (Client.get_cached_resource c url dc fetch).2.2 = [none] ∧
    (∀ resp, fetch none = Except.ok resp →
      (Client.get_cached_resource c url dc fetch).1 = Except.ok resp.records) ∧
    (∀ resp, fetch none = Except.ok resp → dc = true →
      Cache.find (Client.get_cached_resource c url dc fetch).2.1.store url
        = some (CacheValue.deltaCacheItem resp.server_knowledge resp.records)) := by
  refine ⟨?_, ?_, ?_⟩
  · cases hfr : fetch none with
    | error e => simp [Client.get_cached_resource, hfind, hfr]
    | ok resp =>
      by_cases hdc : dc
      · simp [Client.get_cached_resource, hfind, hfr, hdc]
      · simp [Client.get_cached_resource, hfind, hfr, hdc]
  · intro resp hfr
    by_cases hdc : dc
    · simp [Client.get_cached_resource, hfind, hfr, hdc, Cache.update_delta_data,
        mergeRecords]
    · simp [Client.get_cached_resource, hfind, hfr, hdc]
  · intro resp hfr hdc
    simp [Client.get_cached_resource, hfind, hfr, hdc, Cache.update_delta_data,
      mergeRecords, Cache.find_insert_self]

/-- Witness for C3's amended theorem on a concrete frozen, empty cache. -/
theorem frozen_missing_entry_full_fetch_witness :
    (Client.get_cached_resource ⟨true, []⟩ "M" true
        (fun _ => Except.ok ⟨7, [⟨"y", 4⟩]⟩)).2.2 = [none] ∧
    (Client.get_cached_resource ⟨true, []⟩ "M" true
        (fun _ => Except.ok ⟨7, [⟨"y", 4⟩]⟩)).1 = Except.ok [⟨"y", 4⟩] := by
  have h := frozen_missing_entry_full_fetch ⟨true, []⟩ "M" true
    (fun _ => Except.ok ⟨7, [⟨"y", 4⟩]⟩) (by decide)
  exact ⟨h.1, h.2.1 ⟨7, [⟨"y", 4⟩]⟩ rfl⟩

/-- Claim C2 (code-bug evidence): with a persisted cache file holding key
"K" at watermark 42, a client constructed in flush mode fetches "K" by
invoking the fetch function with the *stored* watermark `some 42`, not
`none`: `Cache.__init__` loads the persisted file precisely in flush mode
instead of leaving the store empty, so the store does not behave as Absent. -/
theorem flush_mode_sends_stored_watermark :
    (Client.get_cached_resource
        (Client.init (some [("K", CacheValue.deltaCacheItem 42 [⟨"x", 1⟩])]) []
          CacheMode.flush).1
        "K" true (fun _ => Except.ok ⟨100, [⟨"x", 2⟩]⟩)).2.2
      = [some 42] := rfl

/-- Claim C6 (code-bug evidence): constructing the cache in normal or freeze
mode leaves the store empty even though a persisted cache file with content
exists — `Cache.__init__` only calls `load_from_file` in flush mode, so the
store is *not* loaded from the persisted file in every mode. -/
theorem cache_init_ignores_persisted_file :
    (Cache.init (some [("a", CacheValue.deltaCacheItem 5 [⟨"r", 1⟩])]) CacheMode.normal).store
        = [] ∧
    (Cache.init (some [("a", CacheValue.deltaCacheItem 5 [⟨"r", 1⟩])]) CacheMode.freeze).store
        = [] :=
  ⟨rfl, rfl⟩

/-- Claim C7 counterexample: the sequence of file-system operations performed
by `save_to_file` contains no rename at all — in particular it does not write
to a temporary path and atomically rename it over the target. -/
theorem save_to_file_no_rename_counterexample :
    Cache.save_to_file_ops ".cache/cache.json" "ENC"
        = [FsOp.write ".cache/cache.json" "ENC"] ∧
    (Cache.save_to_file_ops ".cache/cache.json" "ENC").any FsOp.isRename = false :=
  ⟨rfl, rfl⟩

/-- Claim C7 (amended): `save_to_file` fully overwrites the target file by a
single direct write of the encoded store to the target path, leaving every
other path untouched and swallowing no error; it does not use a temporary
path with an atomic rename. -/
theorem save_to_file_direct_overwrite (fs : String → Option String) (p enc : String) :
    FsOp.applyAll fs (Cache.save_to_file_ops p enc) p = some enc ∧
    (∀ q, q ≠ p → FsOp.applyAll fs (Cache.save_to_file_ops p enc) q = fs q) ∧
    (Cache.save_to_file_ops p enc).any FsOp.isRename = false := by
  refine ⟨?_, ?_, rfl⟩
  · simp [FsOp.applyAll, Cache.save_to_file_ops, FsOp.apply]
  · intro q hq
    simp [FsOp.applyAll, Cache.save_to_file_ops, FsOp.apply, hq]

/-- Witness for C7's amended theorem on a concrete file system. -/
theorem save_to_file_direct_overwrite_witness :
    FsOp.applyAll (fun _ => some "OLD") (Cache.save_to_file_ops "cache.json" "NEW")
        "cache.json" = some "NEW" ∧
    (∀ q, q ≠ "cache.json" →
      FsOp.applyAll (fun _ => some "OLD") (Cache.save_to_file_ops "cache.json" "NEW") q
        = some "OLD") ∧
    (Cache.save_to_file_ops "cache.json" "NEW").any FsOp.isRename = false :=
  save_to_file_direct_overwrite (fun _ => some "OLD") "cache.json" "NEW"
